import Mathlib

/-!
Verification of the Bidco pricing/promotion KPI pipeline.

Shallow embedding of the core computational functions of the repository
(`src/pipeline/*.py`) over exact rational arithmetic (`ℚ` in place of
IEEE floats) and Lean lists in place of pandas data frames.  A pandas
`groupby`/`transform` is embedded as filtering the record list by the
group key; a data-frame column is a field of a record structure.
Division on `ℚ` is total with `x / 0 = 0`; where the Python code can
divide by zero and produce `inf`/`NaN`, the embedding notes it at the
definition.  Python's `round(x, n)` (ties to even on floats) is embedded
as rounding to the nearest multiple of `10⁻ⁿ` (`roundTo`); the tie
behaviour is irrelevant to every property proved here.
-/

/-- Rounding to `n` decimal places, embedding `round(x, n)` /
pandas `.round(n)`.  (Python rounds ties of binary floats to even;
on exact rationals we take the nearest multiple of `10⁻ⁿ`, ties up.
No statement below depends on the tie direction.) -/
def roundTo (n : ℕ) (q : ℚ) : ℚ :=
  ((round (q * 10 ^ n) : ℤ) : ℚ) / 10 ^ n

/-- Boolean infix test on character lists (helper for
`Series.str.contains`). -/
def isInfixB (pat : List Char) : List Char → Bool
  | [] => pat.isEmpty
  | c :: cs => pat.isPrefixOf (c :: cs) || isInfixB pat cs

/-- Case-insensitive substring containment, embedding
`s.str.contains(pat, case=False, na=False)`. -/
def containsCI (s pat : String) : Bool :=
  isInfixB pat.toLower.toList s.toLower.toList

/-! ## Data model

One sale record per (store, item, date) row, carrying the columns the
verified functions read (`Store Name`, `Item_Code`, `Description`,
`Section`, `Sub-Department`, `Supplier`, `Quantity`, `Total Sales`,
`RRP`, `Date Of Sale`).  `sect` stands for the `Section` column
(`section` is a Lean keyword). -/

structure SaleRecord where
  storeName : String
  itemCode : String
  description : String
  sect : String
  subDepartment : String
  supplier : String
  quantity : ℚ
  totalSales : ℚ
  rrp : ℚ
  dateOfSale : String
deriving Repr, DecidableEq

/-! ## Promotion Detector (`src/pipeline/promotions.py`, `detect_promotions`)

The calendar computation `pd.to_datetime` followed by
`strftime('%Y-%U')` is abstracted as a parameter
`yw : String → String` mapping the raw `Date Of Sale` value to its
year-week key; every theorem below holds for an arbitrary such map.
The `Day_of_Week` reference column (plot labelling only) is elided. -/

/-- Output row of `detect_promotions`: the input record augmented with
the derived columns `Unit_Price`, `Discount_Pct`, `Year_Week`,
`On_Promo`. -/
structure PromoRow extends SaleRecord where
  unitPrice : ℚ
  discountPct : ℚ
  yearWeek : String
  onPromo : Bool
deriving Repr, DecidableEq

/-- Step 6 of `detect_promotions`:
`df.groupby(['Item_Code', 'Description', 'Year_Week'])['Is_Promo_Day'].transform('sum')`
evaluated at the group of record `r` — the number of records sharing
`r`'s item code, description and year-week whose discount percentage
reaches the threshold.  Note the group key has no store component. -/
def promoDayCount (yw : String → String) (records : List SaleRecord)
    (discount_threshold : ℚ) (r : SaleRecord) : ℕ :=
  (records.filter fun s =>
    s.itemCode == r.itemCode && s.description == r.description &&
      yw s.dateOfSale == yw r.dateOfSale).countP
    (fun s => decide (discount_threshold ≤ (s.rrp - s.totalSales / s.quantity) / s.rrp))

/-- Embedding of `detect_promotions(df, discount_threshold=0.10, min_days=2)`:
computes `Unit_Price = Total Sales / Quantity`,
`Discount_Pct = (RRP − Unit_Price) / RRP`, the `Year_Week` key, and
flags `On_Promo` on every record whose
(`Item_Code`, `Description`, `Year_Week`) group contains at least
`min_days` records with `Discount_Pct ≥ discount_threshold`.
(When `Quantity = 0` or `RRP = 0` the Python code produces `inf`/`NaN`
whose comparison with the threshold is false; the embedding's `x / 0 = 0`
is only relied on where the claims put no such records.) -/
def detect_promotions (yw : String → String) (records : List SaleRecord)
    (discount_threshold : ℚ := 1/10) (min_days : ℕ := 2) : List PromoRow :=
  records.map fun r =>
    { r with
      unitPrice := r.totalSales / r.quantity
      discountPct := (r.rrp - r.totalSales / r.quantity) / r.rrp
      yearWeek := yw r.dateOfSale
      onPromo := decide (min_days ≤ promoDayCount yw records discount_threshold r) }

/-- Modelled from the spec (claim wording): the same detector but with
the records bucketed into per-(`Item_Code`, `Description`, `Store Name`,
`Year_Week`) groups, i.e. the promo-day count taken within each store
separately.  Used to compare the claimed grouping with the code's. -/
def promoDayCountPerStoreClaim (yw : String → String) (records : List SaleRecord)
    (discount_threshold : ℚ) (r : SaleRecord) : ℕ :=
  (records.filter fun s =>
    s.itemCode == r.itemCode && s.description == r.description &&
      s.storeName == r.storeName && yw s.dateOfSale == yw r.dateOfSale).countP
    (fun s => decide (discount_threshold ≤ (s.rrp - s.totalSales / s.quantity) / s.rrp))

/-- Modelled from the spec (claim wording): `detect_promotions` with the
per-(item, store, week) grouping the claim states. -/
def detect_promotions_per_store_claim (yw : String → String) (records : List SaleRecord)
    (discount_threshold : ℚ := 1/10) (min_days : ℕ := 2) : List PromoRow :=
  records.map fun r =>
    { r with
      unitPrice := r.totalSales / r.quantity
      discountPct := (r.rrp - r.totalSales / r.quantity) / r.rrp
      yearWeek := yw r.dateOfSale
      onPromo := decide (min_days ≤ promoDayCountPerStoreClaim yw records discount_threshold r) }

/-! ## Action Recommender (`src/pipeline/pi_summary.py`, `get_action`)

`get_action` reads `Price_Index` (NaN when no competitor data — embedded
as `Option ℚ` with `none` for NaN, so `pd.isna(idx)` is the `none`
branch), `Current_Discount_%` and `Weekly_Gain_KSh` and returns the
`(Status, Action)` pair.  The `KSh {gain:,.0f}` amount interpolated into
the action text is kept as the `ℚ` third component instead of a digit
string (digit formatting is presentation); the surrounding action text is
the source's. -/

def get_action (idx : Option ℚ) (disc : ℚ) (gain : ℚ) : String × String × ℚ :=
  match idx with
  | none =>
      if 12 < disc then ("Too discounted", "Reduce to 9% off", gain)
      else if disc < 5 then ("Premium", "Keep — protect margin", gain)
      else ("Balanced", "Monitor", gain)
  | some idx =>
      if idx < 98/100 ∧ 10 < disc then ("Too cheap + deep", "Raise to 9% off", gain)
      else if idx < 98/100 then ("Too cheap", "Raise price", gain)
      else if 105/100 < idx ∧ 10 < disc then ("Too expensive + deep", "Cut discount", gain)
      else if 12 < disc then ("Too discounted", "Reduce to 9%", gain)
      else if disc < 5 ∧ 102/100 < idx then ("Premium gold", "Keep — winning", gain)
      else ("Balanced", "Monitor", gain)

/-! ## Price Index Builder (`src/pipeline/price_index.py`, `build_price_index`)

The input frame already carries the derived `Unit_Price` and
`Discount_Pct` columns (it is the output of the earlier pipeline steps),
so the record type is extended with them here. -/

/-- Input row of `build_price_index`: a sale record with the
`Unit_Price` and `Discount_Pct` columns attached. -/
structure PricedRecord extends SaleRecord where
  unitPrice : ℚ
  discountPct : ℚ
deriving Repr, DecidableEq

/-- Group key of `build_price_index`:
`['Store Name', 'Sub-Department', 'Section']`. -/
def piKey (r : PricedRecord) : String × String × String :=
  (r.storeName, r.subDepartment, r.sect)

/-- The target-supplier mask
`df['Supplier'].str.contains(target_supplier, case=False, na=False)`. -/
def maskTarget (target_supplier : String) (r : PricedRecord) : Bool :=
  containsCI r.supplier target_supplier

/-- Mean of a list of rationals (`groupby(...).mean()` on a group). -/
def listMean (l : List ℚ) : ℚ := l.sum / l.length

/-- Output row of `build_price_index`. -/
structure PriceIndexRow where
  key : String × String × String
  targetAvgPrice : ℚ
  compAvgPrice : ℚ
  priceIndex : ℚ
  avgRRP : ℚ
  avgDiscountPct : ℚ
deriving Repr, DecidableEq

/-- The `Unit_Price` values of the target subset's group at key `k`
(one group of `df_target.groupby(...)['Unit_Price']`). -/
def targetVals (records : List PricedRecord) (target_supplier : String)
    (k : String × String × String) : List ℚ :=
  ((records.filter (maskTarget target_supplier)).filter
    fun r => decide (piKey r = k)).map fun r => r.unitPrice

/-- The `Unit_Price` values of the competitor subset's group at key `k`
(one group of `df_comp.groupby(...)['Unit_Price']`). -/
def compVals (records : List PricedRecord) (target_supplier : String)
    (k : String × String × String) : List ℚ :=
  ((records.filter fun r => !maskTarget target_supplier r).filter
    fun r => decide (piKey r = k)).map fun r => r.unitPrice

/-- Embedding of `build_price_index(df, target_supplier)`: split the
records into the target-supplier subset and its complement; average
`Unit_Price` per (`Store Name`, `Sub-Department`, `Section`) on each
side; left-merge the competitor average onto the target average and drop
the keys with no competitor rows (`dropna(subset=['Comp_Avg_Price'])`);
`Price_Index` is the ratio of the two means rounded to 3 decimals; the
target-side average RRP and average discount percentage (×100, rounded
to 1 decimal) are attached per the same key.  The distinct target keys
are enumerated by `dedup`; pandas sorts group keys, but no property
below depends on the row order. -/
def build_price_index (records : List PricedRecord) (target_supplier : String := "Bidco") :
    List PriceIndexRow :=
  ((records.filter (maskTarget target_supplier)).map piKey).dedup.filterMap fun k =>
    if (compVals records target_supplier k).isEmpty then none
    else some
      { key := k
        targetAvgPrice := listMean (targetVals records target_supplier k)
        compAvgPrice := listMean (compVals records target_supplier k)
        priceIndex := roundTo 3 (listMean (targetVals records target_supplier k) /
          listMean (compVals records target_supplier k))
        avgRRP := listMean (((records.filter (maskTarget target_supplier)).filter
          fun r => decide (piKey r = k)).map fun r => r.rrp)
        avgDiscountPct := roundTo 1
          (listMean (((records.filter (maskTarget target_supplier)).filter
            fun r => decide (piKey r = k)).map fun r => r.discountPct) * 100) }

/-! ## Outlier Classifier
(`src/pipeline/data_quality.py`, `detect_outliers`;
`src/pipeline/pricing.py`, `detect_supplier_outliers`)

Both functions run the same computation — pandas `Series.quantile` with
its default linear interpolation, IQR bounds with the 1.5 multiplier,
and a strict outside-the-bounds flag — on a grouped numeric column
(`RRP` grouped by `Item_Code`, resp. `Unit_Price` grouped by
`Item_Code`).  The shared computation is embedded once over the list of
the group's values. -/

/-- Linear-interpolation quantile of an already sorted list, the
semantics of `Series.quantile(q)` (default `interpolation='linear'`):
with `n` values and position `h = q·(n−1)`, interpolate between the
values at positions `⌊h⌋` and `⌊h⌋+1` (clamped to the last index) with
weight `h − ⌊h⌋`. -/
def quantileSorted (s : List ℚ) (q : ℚ) : ℚ :=
  let h : ℚ := q * ((s.length : ℚ) - 1)
  let i : ℕ := (⌊h⌋).toNat
  let g : ℚ := h - ⌊h⌋
  let xi := s.getD i 0
  let xj := s.getD (min (i + 1) (s.length - 1)) 0
  xi + g * (xj - xi)

/-- `Series.quantile(q)`: sort the values, then interpolate. -/
def quantile (values : List ℚ) (q : ℚ) : ℚ :=
  quantileSorted (values.insertionSort (· ≤ ·)) q

/-- First quartile `g.quantile(0.25)` of a group's values. -/
def groupQ1 (values : List ℚ) : ℚ := quantile values (1/4)

/-- Third quartile `g.quantile(0.75)` of a group's values. -/
def groupQ3 (values : List ℚ) : ℚ := quantile values (3/4)

/-- Lower IQR bound `Q1 - 1.5 * IQR`. -/
def lowerBound (values : List ℚ) : ℚ :=
  groupQ1 values - 3/2 * (groupQ3 values - groupQ1 values)

/-- Upper IQR bound `Q3 + 1.5 * IQR`. -/
def upperBound (values : List ℚ) : ℚ :=
  groupQ3 values + 3/2 * (groupQ3 values - groupQ1 values)

/-- Embedding of `detect_outliers(g)` (and of the identical
`detect_supplier_outliers(g)`): each value of the group paired with its
`Outlier` flag `(v < lower) | (v > upper)`. -/
def detect_outliers (values : List ℚ) : List (ℚ × Bool) :=
  values.map fun v =>
    (v, decide (v < lowerBound values) || decide (upperBound values < v))

/-! ## Data Health pipeline (`src/pipeline/data_quality.py`)

The pipeline's health score reads, per store: the row count, the count
of negative `Quantity` values, the count of missing `RRP` values, the
per-item IQR outlier flags on `RRP`, and the missing-cell percentage
across all columns.  Raw input rows are embedded with `RRP` as
`Option ℚ` (`none` = NaN); the other columns of the model are
non-nullable, so a row's missing-cell count is 1 exactly when its RRP is
missing, out of `rawColumnCount` cells.  `Date Of Sale` is carried for
fidelity of the column count (it is read by the duplicate check, which
does not feed the score). -/

structure RawRecord where
  storeName : String
  itemCode : String
  quantity : ℚ
  totalSales : ℚ
  rrp : Option ℚ
  dateOfSale : String
deriving Repr, DecidableEq

/-- Number of columns of the embedded raw frame (`len(df.columns)`). -/
def rawColumnCount : ℕ := 6

/-- Distinct store names (the groupby keys of the store-level
aggregations; their order is immaterial to the sums below). -/
def storeList (records : List RawRecord) : List String :=
  (records.map RawRecord.storeName).dedup

/-- Rows of one store. -/
def storeRows (records : List RawRecord) (s : String) : List RawRecord :=
  records.filter fun r => r.storeName == s

/-- The non-missing `RRP` values of item `i`'s group in
`price_df = df[['Store Name','Item_Code','RRP']].dropna(subset=['RRP'])`. -/
def itemRRPs (records : List RawRecord) (i : String) : List ℚ :=
  ((records.filter fun r => r.itemCode == i).filterMap RawRecord.rrp)

/-- The `Outlier` flag `detect_outliers` assigns to a row of
`price_df` (rows with missing RRP are not in `price_df`). -/
def rrpOutlierFlag (records : List RawRecord) (r : RawRecord) : Bool :=
  match r.rrp with
  | none => false
  | some v =>
      let g := itemRRPs records r.itemCode
      decide (v < lowerBound g) || decide (upperBound g < v)

/-- Per-store `outlier_count`: outlier-flagged rows of the store in
`outliers_df` (stores with no non-null RRP rows get 0 via `fillna(0)`). -/
def storeOutlierCount (records : List RawRecord) (s : String) : ℕ :=
  ((storeRows records s).filter fun r => !(r.rrp == none)).countP
    (rrpOutlierFlag records)

/-- Per-store `total_products`: the store's row count in `outliers_df`
(its rows with non-null RRP). -/
def storeTotalProducts (records : List RawRecord) (s : String) : ℕ :=
  ((storeRows records s).filter fun r => !(r.rrp == none)).length

/-- Per-store `Unreliable_Store` flag: `outlier_rate > 10` where
`outlier_rate = (outlier_count / total_products.replace(0, 1) * 100).round(2)`;
a store absent from `outliers_df` (no non-null RRP rows) is filled with
`False` by the left merge's `fillna({'Unreliable_Store': False})`. -/
def storeUnreliable (records : List RawRecord) (s : String) : Bool :=
  if storeTotalProducts records s = 0 then false
  else decide (10 < roundTo 2
    ((storeOutlierCount records s : ℚ) / (storeTotalProducts records s : ℚ) * 100))

/-- Per-store `total_rows` (`('Item_Code', 'count')`). -/
def storeTotalRows (records : List RawRecord) (s : String) : ℕ :=
  (storeRows records s).length

/-- Per-store `negative_rows` (`(Quantity < 0).sum()`). -/
def storeNegativeRows (records : List RawRecord) (s : String) : ℕ :=
  (storeRows records s).countP fun r => decide (r.quantity < 0)

/-- Per-store `missing_rrp` (`RRP.isna().sum()`). -/
def storeMissingRRP (records : List RawRecord) (s : String) : ℕ :=
  (storeRows records s).countP fun r => r.rrp == none

/-- Per-store `pct_missing_all_cols`: missing cells over
`total_rows × len(df.columns)`, ×100, rounded to 2 decimals.  In this
model `RRP` is the only nullable column, so the store's missing-cell
count equals its missing-RRP count. -/
def storePctMissingAllCols (records : List RawRecord) (s : String) : ℚ :=
  roundTo 2 ((storeMissingRRP records s : ℚ)
    / ((storeTotalRows records s : ℚ) * rawColumnCount) * 100)

/-- Embedding of `compute_health_score(row)`: start at 100, deduct the
four weighted percentage penalties and the flat 10-point unreliability
penalty, round to 1 decimal, floor at 0 (`max(round(s, 1), 0)`). -/
def compute_health_score (pct_negative pct_missing_rrp pct_outliers
    pct_missing_all_cols : ℚ) (unreliable : Bool) : ℚ :=
  let s := 100 - pct_negative * (20/100) - pct_missing_rrp * (15/100)
    - pct_outliers * (30/100) - pct_missing_all_cols * (25/100)
  let s := if unreliable then s - 10 else s
  max (roundTo 1 s) 0

/-- Per-store `Data_Health_Score` as `data_health_pipeline` assembles it
(with `pct_negative = negative_rows / total_rows * 100` etc.). -/
def storeHealthScore (records : List RawRecord) (s : String) : ℚ :=
  compute_health_score
    ((storeNegativeRows records s : ℚ) / (storeTotalRows records s : ℚ) * 100)
    ((storeMissingRRP records s : ℚ) / (storeTotalRows records s : ℚ) * 100)
    ((storeOutlierCount records s : ℚ) / (storeTotalRows records s : ℚ) * 100)
    (storePctMissingAllCols records s)
    (storeUnreliable records s)

/-- Embedding of the pipeline's `overall_score`:
`(Σ Data_Health_Score · total_rows / Σ total_rows).round(1)` over the
store-level health table. -/
def overall_score (records : List RawRecord) : ℚ :=
  roundTo 1
    (((storeList records).map fun s =>
        storeHealthScore records s * (storeTotalRows records s : ℚ)).sum
      / ((storeList records).map fun s => (storeTotalRows records s : ℚ)).sum)

/-- Modelled from the spec (claim wording): the overall score as the
quantity-weighted mean of the store scores, each store weighted by its
total `Quantity` of units (same final rounding).  Used to compare the
claimed weighting with the code's row-count weighting. -/
def overall_score_quantity_weighted_claim (records : List RawRecord) : ℚ :=
  roundTo 1
    (((storeList records).map fun s =>
        storeHealthScore records s * ((storeRows records s).map RawRecord.quantity).sum).sum
      / ((storeList records).map fun s => ((storeRows records s).map RawRecord.quantity).sum).sum)

/-! ## Promotion uplift
(`src/pipeline/promo_uplifts.py`, `calculate_bidco_promo_uplift`;
`src/pipeline/bidco_kpi_api.py`, `start_bidco_kpi_api`)

`calculate_bidco_promo_uplift` consumes the output of the promotion
detector (rows with `On_Promo`); the KPI API additionally reads the
`Promo_Units` column added by the uplift step
(`Quantity.where(On_Promo == True, 0)`).  A NaN uplift (baseline units
replaced by NaN before the division) is embedded as `none`. -/

/-- Row of the frame consumed by the uplift / KPI functions: a sale
record with the detector's `On_Promo` flag and (for the KPI API) the
`Promo_Units` column. -/
structure KpiRecord extends SaleRecord where
  onPromo : Bool
  promoUnits : ℚ
deriving Repr, DecidableEq

/-- Per-section output row of `calculate_bidco_promo_uplift`. -/
structure SectionUplift where
  sect : String
  promoUnits : ℚ
  baselineUnits : ℚ
  promoUpliftPct : Option ℚ
deriving Repr, DecidableEq

/-- Embedding of `calculate_bidco_promo_uplift(df)`: filter to
`Supplier == 'BIDCO AFRICA LIMITED'`, split each row's `Quantity` into
`Promo_Units` / `Baseline_Units` by the `On_Promo` flag, sum both per
`Section`, and compute
`Promo_Uplift_Pct = (Promo_Units − Baseline_Units) / Baseline_Units.replace({0: nan}) * 100`
(`none` when the section's baseline is 0).  The final
`sort_values('Promo_Uplift_Pct', ascending=False)` presentation ordering
is elided, and the distinct sections are enumerated by `dedup` (pandas
sorts group keys; no claim depends on the row order). -/
def calculate_bidco_promo_uplift (records : List KpiRecord) : List SectionUplift :=
  let bidco := records.filter fun r => r.supplier == "BIDCO AFRICA LIMITED"
  ((bidco.map fun r => r.sect).dedup).map fun sec =>
    let rows := bidco.filter fun r => r.sect == sec
    let promo := (rows.map fun r => if r.onPromo then r.quantity else 0).sum
    let baseline := (rows.map fun r => if r.onPromo then 0 else r.quantity).sum
    { sect := sec
      promoUnits := promo
      baselineUnits := baseline
      promoUpliftPct :=
        if baseline = 0 then none else some ((promo - baseline) / baseline * 100) }

/-- Modelled from the spec: `promotion uplift = (mean quantity on-promo
/ mean quantity off-promo − 1) × 100, guarded against divide-by-zero
(returns 0 when baseline is zero or absent)` — the formula the spec
states for the KPI, which no function in `src/` computes. -/
def spec_promo_uplift (records : List KpiRecord) : ℚ :=
  let onQ := (records.filter fun r => r.onPromo).map fun r => r.quantity
  let offQ := (records.filter fun r => !r.onPromo).map fun r => r.quantity
  if listMean offQ = 0 then 0 else (listMean onQ / listMean offQ - 1) * 100

/-- The `promo_uplift` KPI of `start_bidco_kpi_api` (line 30):
`((df[df['On_Promo']]['Quantity'].sum() / df['Promo_Units'].sum()) - 1) * 100`
`if df['Promo_Units'].sum() > 0 else 0`.  Note the denominator is the
`Promo_Units` sum — the on-promo quantity sum itself — not the baseline. -/
def api_promo_uplift (df : List KpiRecord) : ℚ :=
  if 0 < (df.map fun r => r.promoUnits).sum then
    (((df.filter fun r => r.onPromo).map fun r => r.quantity).sum
      / (df.map fun r => r.promoUnits).sum - 1) * 100
  else 0

/-! ## KPI API (`src/pipeline/bidco_kpi_api.py`)

`start_bidco_kpi_api` computes all KPI scalars once, up front, from its
arguments; the `/kpis/json` endpoint then returns them as a fixed
object.  The endpoint is embedded as the record of values the closure
returns.  Competitor rows of `df_original` only need `Supplier`,
`Total Sales` and `Quantity`, so `df_original` is a `List SaleRecord`
(`Option` for the `except`-guarded absence, `df_original=None`). -/

/-- The JSON object served by `/kpis/json`. -/
structure KpiJson where
  total_revenue_ksh : ℤ
  units_sold : ℚ
  avg_discount_pct : ℚ
  price_index : String
  promo_coverage_pct : ℤ
  promo_uplift_pct : ℤ
  weekly_gain_ksh : ℤ
  data_health : String
deriving Repr, DecidableEq

/-- The `price_index_str` computation of `start_bidco_kpi_api`: with no
`df_original` the subscript of `None` raises and the `except` arm yields
`"N/A"`; otherwise the quantity-weighted competitor price is compared
with the average Bidco price (the digit formatting `f"{...:.3f}"` of the
rounded index — or of NaN when the competitor price is not positive — is
abstracted as `toString`). -/
def priceIndexStr (avg_price : ℚ) (df_original : Option (List SaleRecord)) : String :=
  match df_original with
  | none => "N/A"
  | some full =>
      let comp := full.filter fun r => !containsCI r.supplier "BIDCO"
      let compQty := (comp.map fun r => r.quantity).sum
      let comp_price := (comp.map fun r => r.totalSales / r.quantity * r.quantity).sum / compQty
      if 0 < comp_price then toString (roundTo 3 (avg_price / comp_price)) else "nan"

/-- Embedding of `start_bidco_kpi_api(bidco_data, df_original=None,
weekly_gain=27618)` restricted to the value its `/kpis/json` endpoint
returns (`kpis_json`): every numeric KPI is recalculated from
`bidco_data` up front, while `weekly_gain_ksh` passes the `weekly_gain`
argument through unchanged and `data_health` is the hard-coded string
`"99/100"`. -/
def kpis_json (bidco_data : List KpiRecord) (df_original : Option (List SaleRecord) := none)
    (weekly_gain : ℤ := 27618) : KpiJson :=
  let total_revenue := (bidco_data.map fun r => r.totalSales).sum
  let total_units := (bidco_data.map fun r => r.quantity).sum
  let avg_price := total_revenue / total_units
  let avg_rrp := (bidco_data.map fun r => r.rrp * r.quantity).sum / total_units
  let avg_discount := (1 - avg_price / avg_rrp) * 100
  let promo_rate := ((bidco_data.countP fun r => r.onPromo : ℚ) / bidco_data.length) * 100
  { total_revenue_ksh := round total_revenue
    units_sold := total_units
    avg_discount_pct := roundTo 1 avg_discount
    price_index := priceIndexStr avg_price df_original
    promo_coverage_pct := round promo_rate
    promo_uplift_pct := round (api_promo_uplift bidco_data)
    weekly_gain_ksh := weekly_gain
    data_health := "99/100" }

/-! ## Theorems -/

/-- C10: for every pair of input datasets (and for the default), the
`/kpis/json` endpoint's `data_health` field is the constant string
`"99/100"` and its `weekly_gain_ksh` field is the `weekly_gain`
argument of `start_bidco_kpi_api` (default `27618`); neither is computed
from the sales data. -/
theorem kpis_json_static_fields (bidco : List KpiRecord)
    (orig : Option (List SaleRecord)) (g : ℤ) :
    (kpis_json bidco orig g).data_health = "99/100" ∧
    (kpis_json bidco orig g).weekly_gain_ksh = g ∧
    (kpis_json bidco).data_health = "99/100" ∧
    (kpis_json bidco).weekly_gain_ksh = 27618 :=
  ⟨rfl, rfl, rfl, rfl⟩
lemma get_action_cases_defined (idx disc gain : ℚ) :
    ((get_action (some idx) disc gain).1 = "Too cheap + deep" ↔ idx < 98/100 ∧ 10 < disc) ∧
    ((get_action (some idx) disc gain).1 = "Too cheap" ↔ idx < 98/100 ∧ disc ≤ 10) ∧
    ((get_action (some idx) disc gain).1 = "Too expensive + deep" ↔ 105/100 < idx ∧ 10 < disc) ∧
    ((get_action (some idx) disc gain).1 = "Too discounted" ↔
      98/100 ≤ idx ∧ idx ≤ 105/100 ∧ 12 < disc) ∧
    ((get_action (some idx) disc gain).1 = "Premium gold" ↔ 102/100 < idx ∧ disc < 5) ∧
    ((get_action (some idx) disc gain).1 = "Balanced" ↔
      ¬(idx < 98/100 ∨ (105/100 < idx ∧ 10 < disc) ∨ (idx ≤ 105/100 ∧ 12 < disc) ∨
        (102/100 < idx ∧ disc < 5))) := by
  obtain h | h := lt_or_le idx (98/100)
  · obtain hd | hd := lt_or_le (10:ℚ) disc
    · have e : get_action (some idx) disc gain = ("Too cheap + deep", "Raise to 9% off", gain) := by
        simp [get_action, h, hd]
      rw [e]
      exact ⟨iff_of_true rfl ⟨h, hd⟩,
        iff_of_false (by simp) (fun h' => absurd h'.2 (by linarith)),
        iff_of_false (by simp) (fun h' => absurd h'.1 (by linarith)),
        iff_of_false (by simp) (fun h' => absurd h'.1 (by linarith)),
        iff_of_false (by simp) (fun h' => absurd h'.1 (by linarith)),
        iff_of_false (by simp) (fun hn => hn (Or.inl h))⟩
    · have e : get_action (some idx) disc gain = ("Too cheap", "Raise price", gain) := by
        simp [get_action, h, not_lt.mpr hd]
      rw [e]
      exact ⟨iff_of_false (by simp) (fun h' => absurd h'.2 (by linarith)),
        iff_of_true rfl ⟨h, hd⟩,
        iff_of_false (by simp) (fun h' => absurd h'.1 (by linarith)),
        iff_of_false (by simp) (fun h' => absurd h'.1 (by linarith)),
        iff_of_false (by simp) (fun h' => absurd h'.1 (by linarith)),
        iff_of_false (by simp) (fun hn => hn (Or.inl h))⟩
  · obtain hd12 | hd12 := lt_or_le (12:ℚ) disc
    · obtain hc | hc := lt_or_le (105/100 : ℚ) idx
      · have e : get_action (some idx) disc gain = ("Too expensive + deep", "Cut discount", gain) := by
          simp [get_action, not_lt.mpr h, hc, show (10:ℚ) < disc by linarith]
        rw [e]
        exact ⟨iff_of_false (by simp) (fun h' => absurd h'.1 (by linarith)),
          iff_of_false (by simp) (fun h' => absurd h'.1 (by linarith)),
          iff_of_true rfl ⟨hc, by linarith⟩,
          iff_of_false (by simp) (fun h' => absurd h'.2.1 (by linarith)),
          iff_of_false (by simp) (fun h' => absurd h'.2 (by linarith)),
          iff_of_false (by simp) (fun hn => hn (Or.inr (Or.inl ⟨hc, by linarith⟩)))⟩
      · have e : get_action (some idx) disc gain = ("Too discounted", "Reduce to 9%", gain) := by
          simp [get_action, not_lt.mpr h, not_lt.mpr hc, hd12]
        rw [e]
        exact ⟨iff_of_false (by simp) (fun h' => absurd h'.1 (by linarith)),
          iff_of_false (by simp) (fun h' => absurd h'.1 (by linarith)),
          iff_of_false (by simp) (fun h' => absurd h'.1 (by linarith)),
          iff_of_true rfl ⟨h, hc, hd12⟩,
          iff_of_false (by simp) (fun h' => absurd h'.2 (by linarith)),
          iff_of_false (by simp) (fun hn => hn (Or.inr (Or.inr (Or.inl ⟨hc, hd12⟩))))⟩
    · obtain hd10 | hd10 := lt_or_le (10:ℚ) disc
      · obtain hc | hc := lt_or_le (105/100 : ℚ) idx
        · have e : get_action (some idx) disc gain = ("Too expensive + deep", "Cut discount", gain) := by
            simp [get_action, not_lt.mpr h, hc, hd10, not_lt.mpr hd12]
          rw [e]
          exact ⟨iff_of_false (by simp) (fun h' => absurd h'.1 (by linarith)),
            iff_of_false (by simp) (fun h' => absurd h'.1 (by linarith)),
            iff_of_true rfl ⟨hc, hd10⟩,
            iff_of_false (by simp) (fun h' => absurd h'.2.1 (by linarith)),
            iff_of_false (by simp) (fun h' => absurd h'.2 (by linarith)),
            iff_of_false (by simp) (fun hn => hn (Or.inr (Or.inl ⟨hc, hd10⟩)))⟩
        · have e : get_action (some idx) disc gain = ("Balanced", "Monitor", gain) := by
            simp [get_action, not_lt.mpr h, not_lt.mpr hc, not_lt.mpr hd12,
              show ¬(disc < 5) from by linarith]
          rw [e]
          exact ⟨iff_of_false (by simp) (fun h' => absurd h'.1 (by linarith)),
            iff_of_false (by simp) (fun h' => absurd h'.1 (by linarith)),
            iff_of_false (by simp) (fun h' => absurd h'.1 (by linarith)),
            iff_of_false (by simp) (fun h' => absurd h'.2.2 (by linarith)),
            iff_of_false (by simp) (fun h' => absurd h'.2 (by linarith)),
            iff_of_true rfl (by rintro (h' | ⟨h1, h2⟩ | ⟨h1, h2⟩ | ⟨h1, h2⟩) <;> linarith)⟩
      · obtain he | he := lt_or_le disc (5:ℚ)
        · obtain hf | hf := lt_or_le (102/100 : ℚ) idx
          · have e : get_action (some idx) disc gain = ("Premium gold", "Keep — winning", gain) := by
              simp [get_action, not_lt.mpr h, not_lt.mpr hd10, not_lt.mpr hd12, he, hf]
            rw [e]
            exact ⟨iff_of_false (by simp) (fun h' => absurd h'.1 (by linarith)),
              iff_of_false (by simp) (fun h' => absurd h'.1 (by linarith)),
              iff_of_false (by simp) (fun h' => absurd h'.2 (by linarith)),
              iff_of_false (by simp) (fun h' => absurd h'.2.2 (by linarith)),
              iff_of_true rfl ⟨hf, he⟩,
              iff_of_false (by simp) (fun hn => hn (Or.inr (Or.inr (Or.inr ⟨hf, he⟩))))⟩
          · have e : get_action (some idx) disc gain = ("Balanced", "Monitor", gain) := by
              simp [get_action, not_lt.mpr h, not_lt.mpr hd10, not_lt.mpr hd12, not_lt.mpr hf]
            rw [e]
            exact ⟨iff_of_false (by simp) (fun h' => absurd h'.1 (by linarith)),
              iff_of_false (by simp) (fun h' => absurd h'.1 (by linarith)),
              iff_of_false (by simp) (fun h' => absurd h'.2 (by linarith)),
              iff_of_false (by simp) (fun h' => absurd h'.2.2 (by linarith)),
              iff_of_false (by simp) (fun h' => absurd h'.1 (by linarith)),
              iff_of_true rfl (by rintro (h' | ⟨h1, h2⟩ | ⟨h1, h2⟩ | ⟨h1, h2⟩) <;> linarith)⟩
        · have e : get_action (some idx) disc gain = ("Balanced", "Monitor", gain) := by
            simp [get_action, not_lt.mpr h, not_lt.mpr hd10, not_lt.mpr hd12, not_lt.mpr he]
          rw [e]
          exact ⟨iff_of_false (by simp) (fun h' => absurd h'.1 (by linarith)),
            iff_of_false (by simp) (fun h' => absurd h'.1 (by linarith)),
            iff_of_false (by simp) (fun h' => absurd h'.2 (by linarith)),
            iff_of_false (by simp) (fun h' => absurd h'.2.2 (by linarith)),
            iff_of_false (by simp) (fun h' => absurd h'.2 (by linarith)),
            iff_of_true rfl (by rintro (h' | ⟨h1, h2⟩ | ⟨h1, h2⟩ | ⟨h1, h2⟩) <;> linarith)⟩

lemma get_action_cases_undefined (disc gain : ℚ) :
    ((get_action none disc gain).1 = "Too discounted" ↔ 12 < disc) ∧
    ((get_action none disc gain).1 = "Premium" ↔ disc < 5) ∧
    ((get_action none disc gain).1 = "Balanced" ↔ 5 ≤ disc ∧ disc ≤ 12) := by
  obtain hd | hd := lt_or_le (12:ℚ) disc
  · have e : get_action none disc gain = ("Too discounted", "Reduce to 9% off", gain) := by
      simp [get_action, hd]
    rw [e]
    exact ⟨iff_of_true rfl hd,
      iff_of_false (by simp) (by linarith),
      iff_of_false (by simp) (fun h' => absurd h'.2 (by linarith))⟩
  · obtain he | he := lt_or_le disc (5:ℚ)
    · have e : get_action none disc gain = ("Premium", "Keep — protect margin", gain) := by
        simp [get_action, not_lt.mpr hd, he]
      rw [e]
      exact ⟨iff_of_false (by simp) (by linarith),
        iff_of_true rfl he,
        iff_of_false (by simp) (fun h' => absurd h'.1 (by linarith))⟩
    · have e : get_action none disc gain = ("Balanced", "Monitor", gain) := by
        simp [get_action, not_lt.mpr hd, not_lt.mpr he]
      rw [e]
      exact ⟨iff_of_false (by simp) (by linarith),
        iff_of_false (by simp) (by linarith),
        iff_of_true rfl ⟨he, hd⟩⟩

/-- C2: the decision table of `get_action` is evaluated in the stated
precedence.  With a defined price index, each status is returned exactly
on the precedence-resolved region of the (index, discount) plane listed
here; with an undefined price index (`none`, i.e. NaN), the discount-only
fallback thresholds apply. -/
theorem get_action_decision_table (idx disc gain : ℚ) :
    ((get_action (some idx) disc gain).1 = "Too cheap + deep" ↔ idx < 98/100 ∧ 10 < disc) ∧
    ((get_action (some idx) disc gain).1 = "Too cheap" ↔ idx < 98/100 ∧ disc ≤ 10) ∧
    ((get_action (some idx) disc gain).1 = "Too expensive + deep" ↔ 105/100 < idx ∧ 10 < disc) ∧
    ((get_action (some idx) disc gain).1 = "Too discounted" ↔
      98/100 ≤ idx ∧ idx ≤ 105/100 ∧ 12 < disc) ∧
    ((get_action (some idx) disc gain).1 = "Premium gold" ↔ 102/100 < idx ∧ disc < 5) ∧
    ((get_action (some idx) disc gain).1 = "Balanced" ↔
      ¬(idx < 98/100 ∨ (105/100 < idx ∧ 10 < disc) ∨ (idx ≤ 105/100 ∧ 12 < disc) ∨
        (102/100 < idx ∧ disc < 5))) ∧
    ((get_action none disc gain).1 = "Too discounted" ↔ 12 < disc) ∧
    ((get_action none disc gain).1 = "Premium" ↔ disc < 5) ∧
    ((get_action none disc gain).1 = "Balanced" ↔ 5 ≤ disc ∧ disc ≤ 12) := by
  obtain ⟨a1, a2, a3, a4, a5, a6⟩ := get_action_cases_defined idx disc gain
  obtain ⟨b1, b2, b3⟩ := get_action_cases_undefined disc gain
  exact ⟨a1, a2, a3, a4, a5, a6, b1, b2, b3⟩

/-- C9: the promotion flag is monotone in `min_days` for fixed
`discount_threshold`: lowering `min_days` to `min_days' ≤ min_days`
keeps every record `detect_promotions` flagged `On_Promo` flagged (row
for row), so it can only add promotion weeks, never remove one. -/
theorem detect_promotions_monotone_min_days (yw : String → String)
    (records : List SaleRecord) (discount_threshold : ℚ) (min_days min_days' : ℕ)
    (h : min_days' ≤ min_days) :
    ∀ p ∈ (detect_promotions yw records discount_threshold min_days).zip
      (detect_promotions yw records discount_threshold min_days'),
      p.1.onPromo = true → p.2.onPromo = true := by
  unfold detect_promotions
  rw [List.zip_map']
  intro p hp
  obtain ⟨r, _, rfl⟩ := List.mem_map.mp hp
  simp only [decide_eq_true_eq]
  omega

/-- Witness for C9 at a concrete input: one store-day record discounted
20% against RRP, week key constant, `min_days` lowered from 2 to 1. -/
theorem detect_promotions_monotone_min_days_witness :
    1 ≤ 2 ∧
    ∀ p ∈ (detect_promotions (fun _ => "2024-01")
        [{ storeName := "S1", itemCode := "I1", description := "D1", sect := "Sec",
           subDepartment := "SD", supplier := "BIDCO AFRICA LIMITED", quantity := 2,
           totalSales := 16, rrp := 10, dateOfSale := "2024-01-01" }] (1/10) 2).zip
      (detect_promotions (fun _ => "2024-01")
        [{ storeName := "S1", itemCode := "I1", description := "D1", sect := "Sec",
           subDepartment := "SD", supplier := "BIDCO AFRICA LIMITED", quantity := 2,
           totalSales := 16, rrp := 10, dateOfSale := "2024-01-01" }] (1/10) 1),
      p.1.onPromo = true → p.2.onPromo = true :=
  ⟨by norm_num,
   detect_promotions_monotone_min_days (fun _ => "2024-01") _ (1/10) 2 1 (by norm_num)⟩

/-! Rounding bound helpers shared by the health-score theorems. -/

lemma round_rat_mono {x y : ℚ} (h : x ≤ y) : round x ≤ round y := by
  rw [round_eq, round_eq]
  exact Int.floor_mono (by linarith)

lemma roundTo_le_intCast (n : ℕ) (q : ℚ) (M : ℤ) (h : q ≤ (M : ℚ)) :
    roundTo n q ≤ (M : ℚ) := by
  have hp : (0:ℚ) < 10 ^ n := by positivity
  have h1 : round (q * 10 ^ n) ≤ M * 10 ^ n := by
    have h2 := round_rat_mono (mul_le_mul_of_nonneg_right h hp.le)
    rwa [show ((M:ℚ) * 10 ^ n) = ((M * 10 ^ n : ℤ) : ℚ) by push_cast; ring,
      round_intCast] at h2
  rw [roundTo, div_le_iff₀ hp]
  calc ((round (q * 10 ^ n) : ℤ) : ℚ) ≤ ((M * 10 ^ n : ℤ) : ℚ) := by exact_mod_cast h1
    _ = (M:ℚ) * 10 ^ n := by push_cast; ring

lemma intCast_le_roundTo (n : ℕ) (q : ℚ) (M : ℤ) (h : (M : ℚ) ≤ q) :
    (M : ℚ) ≤ roundTo n q := by
  have hp : (0:ℚ) < 10 ^ n := by positivity
  have h1 : M * 10 ^ n ≤ round (q * 10 ^ n) := by
    have h2 := round_rat_mono (mul_le_mul_of_nonneg_right h hp.le)
    rwa [show ((M:ℚ) * 10 ^ n) = ((M * 10 ^ n : ℤ) : ℚ) by push_cast; ring,
      round_intCast] at h2
  rw [roundTo, le_div_iff₀ hp]
  calc (M:ℚ) * 10 ^ n = ((M * 10 ^ n : ℤ) : ℚ) := by push_cast; ring
    _ ≤ ((round (q * 10 ^ n) : ℤ) : ℚ) := by exact_mod_cast h1

/-- C7: for any nonnegative input percentages (all four rates the
pipeline feeds it are percentages of counts, hence nonnegative) and any
unreliability flag, the per-store Data Health Score lies in `[0, 100]`,
and it is exactly `100` when all four rates are `0` and the store is not
flagged unreliable. -/
theorem compute_health_score_range (pn pm po pc : ℚ) (unrel : Bool)
    (hn : 0 ≤ pn) (hm : 0 ≤ pm) (ho : 0 ≤ po) (hc : 0 ≤ pc) :
    0 ≤ compute_health_score pn pm po pc unrel ∧
    compute_health_score pn pm po pc unrel ≤ 100 ∧
    compute_health_score 0 0 0 0 false = 100 := by
  refine ⟨le_max_right _ _, ?_, ?_⟩
  · have hs : (if unrel then
        (100 - pn * (20/100) - pm * (15/100) - po * (30/100) - pc * (25/100)) - 10
        else 100 - pn * (20/100) - pm * (15/100) - po * (30/100) - pc * (25/100)) ≤ 100 := by
      split <;> linarith
    have h1 : roundTo 1 (if unrel then
        (100 - pn * (20/100) - pm * (15/100) - po * (30/100) - pc * (25/100)) - 10
        else 100 - pn * (20/100) - pm * (15/100) - po * (30/100) - pc * (25/100)) ≤ 100 := by
      have := roundTo_le_intCast 1 _ 100 (by exact_mod_cast hs)
      exact_mod_cast this
    exact max_le h1 (by norm_num)
  · norm_num [compute_health_score, roundTo, round_eq]

/-- Witness for C7 at concrete inputs: a store with 10% negative rows
and the unreliability penalty scores 88, inside `[0, 100]`. -/
theorem compute_health_score_range_witness :
    (0:ℚ) ≤ 10 ∧ (0:ℚ) ≤ 0 ∧
    (0 ≤ compute_health_score 10 0 0 0 true ∧
      compute_health_score 10 0 0 0 true ≤ 100 ∧
      compute_health_score 0 0 0 0 false = 100) :=
  ⟨by norm_num, by norm_num,
    compute_health_score_range 10 0 0 0 true (by norm_num) (by norm_num) (by norm_num)
      (by norm_num)⟩

/-! C1 concrete input: the same item and description sold in two
different stores in the same week, each store discounted ≥ 10% on one
day only. -/

/-- Record 1 of the C1 counterexample: store A, one 20%-discounted day. -/
def c1r1 : SaleRecord :=
  { storeName := "Store A", itemCode := "I1", description := "D1", sect := "Sec",
    subDepartment := "SD", supplier := "BIDCO AFRICA LIMITED", quantity := 2,
    totalSales := 16, rrp := 10, dateOfSale := "2024-01-01" }

/-- Record 2 of the C1 counterexample: store B, one 20%-discounted day. -/
def c1r2 : SaleRecord :=
  { storeName := "Store B", itemCode := "I1", description := "D1", sect := "Sec",
    subDepartment := "SD", supplier := "BIDCO AFRICA LIMITED", quantity := 2,
    totalSales := 16, rrp := 10, dateOfSale := "2024-01-02" }

/-- The two-record C1 counterexample data set. -/
def c1Records : List SaleRecord := [c1r1, c1r2]

/-- C1 counterexample: the claim's per-(item, store, week) grouping does
not match the code.  On `c1Records` each store has only one discounted
day, so under the claimed grouping no record reaches `min_days = 2` and
`On_Promo` would be false everywhere — but `detect_promotions` pools the
two stores into one (`Item_Code`, `Description`, `Year_Week`) group,
counts 2 discounted records, and flags both records true. -/
theorem detect_promotions_store_grouping_counterexample :
    ((detect_promotions (fun _ => "2024-01") c1Records (1/10) 2).map PromoRow.onPromo
      = [true, true]) ∧
    ((detect_promotions_per_store_claim (fun _ => "2024-01") c1Records (1/10) 2).map
        PromoRow.onPromo = [false, false]) := by
  constructor
  · simp [detect_promotions, promoDayCount, c1Records, c1r1, c1r2]
    norm_num
  · simp [detect_promotions_per_store_claim, promoDayCountPerStoreClaim, c1Records, c1r1, c1r2]
    norm_num

/-- C1 (amended): for every input record set, `detect_promotions`
computes unit price as total sales divided by quantity, discount
percentage as (RRP minus unit price) divided by RRP, buckets records
into per-(item code, description, week) groups pooled across stores,
counts the records in each group whose discount percentage is at least
`discount_threshold`, and sets `On_Promo` to true for a record exactly
when its group's count is at least `min_days`. -/
theorem detect_promotions_spec (yw : String → String) (records : List SaleRecord)
    (discount_threshold : ℚ) (min_days : ℕ) :
    ∀ p ∈ detect_promotions yw records discount_threshold min_days,
      p.unitPrice = p.totalSales / p.quantity ∧
      p.discountPct = (p.rrp - p.unitPrice) / p.rrp ∧
      p.yearWeek = yw p.dateOfSale ∧
      (p.onPromo = true ↔
        min_days ≤ promoDayCount yw records discount_threshold p.toSaleRecord) := by
  intro p hp
  obtain ⟨r, _, rfl⟩ := List.mem_map.mp hp
  exact ⟨rfl, rfl, rfl, by simp⟩

/-- The first output row of `detect_promotions` on the C1 data set,
spelled with the detector's defining expressions (for the witness). -/
def c1WitnessRow : PromoRow :=
  { c1r1 with
    unitPrice := c1r1.totalSales / c1r1.quantity
    discountPct := (c1r1.rrp - c1r1.totalSales / c1r1.quantity) / c1r1.rrp
    yearWeek := "2024-01"
    onPromo := decide (2 ≤ promoDayCount (fun _ => "2024-01") c1Records (1/10) c1r1) }

/-- Witness for C1 (amended) at the concrete data set `c1Records`. -/
theorem detect_promotions_spec_witness :
    c1WitnessRow ∈ detect_promotions (fun _ => "2024-01") c1Records (1/10) 2 ∧
    (c1WitnessRow.unitPrice = c1WitnessRow.totalSales / c1WitnessRow.quantity ∧
      c1WitnessRow.discountPct = (c1WitnessRow.rrp - c1WitnessRow.unitPrice) / c1WitnessRow.rrp ∧
      c1WitnessRow.yearWeek = (fun _ : String => "2024-01") c1WitnessRow.dateOfSale ∧
      (c1WitnessRow.onPromo = true ↔
        2 ≤ promoDayCount (fun _ => "2024-01") c1Records (1/10) c1WitnessRow.toSaleRecord)) :=
  have hmem : c1WitnessRow ∈ detect_promotions (fun _ => "2024-01") c1Records (1/10) 2 := by
    simp [detect_promotions, c1Records, c1WitnessRow]
  ⟨hmem, detect_promotions_spec (fun _ => "2024-01") c1Records (1/10) 2 c1WitnessRow hmem⟩

/-! C6: the KPI API's uplift denominator. -/

/-- Helper for C6: when the `Promo_Units` column satisfies its defining
invariant (`Quantity.where(On_Promo == True, 0)`), the on-promo quantity
sum and the `Promo_Units` sum coincide. -/
lemma promo_units_sum_eq (df : List KpiRecord)
    (h : ∀ r ∈ df, r.promoUnits = if r.onPromo then r.quantity else 0) :
    ((df.filter fun r => r.onPromo).map fun r => r.quantity).sum
      = (df.map fun r => r.promoUnits).sum := by
  induction df with
  | nil => rfl
  | cons r t ih =>
    have hr := h r (List.mem_cons_self r t)
    have ht := ih fun s hs => h s (List.mem_cons_of_mem r hs)
    by_cases hp : r.onPromo = true
    · simp [List.filter_cons, hp, hr, ht]
    · simp [List.filter_cons, hp, hr, ht]

/-- C6 (code bug): the `promo_uplift` KPI of `start_bidco_kpi_api`
divides the on-promo quantity sum by the `Promo_Units` sum — the same
number whenever `Promo_Units` satisfies its defining invariant — instead
of the off-promo baseline the spec states, so the computed uplift is `0`
on every input (the guard, which tests the promo sum rather than the
baseline, returns `0` in the remaining case as well).  Second conjunct:
on a concrete input whose spec-mandated uplift is `50`, the API serves
`0` while `calculate_bidco_promo_uplift` reports a ratio of sums (`200`)
and a `NaN`, not `0`, on a zero baseline. -/
theorem api_promo_uplift_always_zero (df : List KpiRecord)
    (h : ∀ r ∈ df, r.promoUnits = if r.onPromo then r.quantity else 0) :
    api_promo_uplift df = 0 := by
  have hs := promo_units_sum_eq df h
  unfold api_promo_uplift
  split_ifs with hpos
  · rw [hs, div_self (ne_of_gt hpos)]; ring
  · rfl

/-- C6 failing input: section "Oils", two on-promo days (10 and 20
units) against a 10-unit baseline day. -/
def c6Records : List KpiRecord :=
  [{ storeName := "Store A", itemCode := "I1", description := "D1", sect := "Oils",
     subDepartment := "SD", supplier := "BIDCO AFRICA LIMITED", quantity := 10,
     totalSales := 80, rrp := 10, dateOfSale := "2024-01-01", onPromo := true,
     promoUnits := 10 },
   { storeName := "Store A", itemCode := "I1", description := "D1", sect := "Oils",
     subDepartment := "SD", supplier := "BIDCO AFRICA LIMITED", quantity := 20,
     totalSales := 160, rrp := 10, dateOfSale := "2024-01-02", onPromo := true,
     promoUnits := 20 },
   { storeName := "Store A", itemCode := "I1", description := "D1", sect := "Oils",
     subDepartment := "SD", supplier := "BIDCO AFRICA LIMITED", quantity := 10,
     totalSales := 100, rrp := 10, dateOfSale := "2024-01-03", onPromo := false,
     promoUnits := 0 }]

/-- C6 zero-baseline input: a single on-promo record, baseline 0. -/
def c6ZeroBaseline : List KpiRecord :=
  [{ storeName := "Store A", itemCode := "I1", description := "D1", sect := "Oils",
     subDepartment := "SD", supplier := "BIDCO AFRICA LIMITED", quantity := 10,
     totalSales := 80, rrp := 10, dateOfSale := "2024-01-01", onPromo := true,
     promoUnits := 10 }]

/-- Witness for C6 at the failing input: the API uplift is `0` where the
spec's mean-based formula gives `50`; `calculate_bidco_promo_uplift`
gives the ratio of sums (`200`) instead, and `none` (NaN), not `0`, on a
zero baseline. -/
theorem api_promo_uplift_always_zero_witness :
    (∀ r ∈ c6Records, r.promoUnits = if r.onPromo then r.quantity else 0) ∧
    api_promo_uplift c6Records = 0 ∧
    spec_promo_uplift c6Records = 50 ∧
    calculate_bidco_promo_uplift c6Records =
      [{ sect := "Oils", promoUnits := 30, baselineUnits := 10, promoUpliftPct := some 200 }] ∧
    calculate_bidco_promo_uplift c6ZeroBaseline =
      [{ sect := "Oils", promoUnits := 10, baselineUnits := 0, promoUpliftPct := none }] :=
  have hinv : ∀ r ∈ c6Records, r.promoUnits = if r.onPromo then r.quantity else 0 := by
    intro r hr
    fin_cases hr <;> rfl
  ⟨hinv, api_promo_uplift_always_zero c6Records hinv,
    by norm_num [spec_promo_uplift, listMean, c6Records],
    by norm_num [calculate_bidco_promo_uplift, c6Records, List.dedup],
    by norm_num [calculate_bidco_promo_uplift, c6ZeroBaseline, List.dedup]⟩

/-! Helpers for the outlier-bound theorems: values of a sorted list are
monotone in the index, and the interpolated first quartile is at most
the interpolated third quartile once the group has at least 4 values. -/

lemma getD_mono (s : List ℚ) (hs : List.Sorted (· ≤ ·) s) {a b : ℕ}
    (hab : a ≤ b) (hb : b < s.length) : s.getD a 0 ≤ s.getD b 0 := by
  have ha : a < s.length := lt_of_le_of_lt hab hb
  rw [List.getD_eq_getElem _ _ ha, List.getD_eq_getElem _ _ hb]
  exact hs.rel_get_of_le hab

lemma quantileSorted_q1_le_q3 (s : List ℚ) (hs : List.Sorted (· ≤ ·) s)
    (h4 : 4 ≤ s.length) : quantileSorted s (1/4) ≤ quantileSorted s (3/4) := by
  have hn4 : (4:ℚ) ≤ (s.length : ℚ) := by exact_mod_cast h4
  have h1nn : (0:ℚ) ≤ (1/4) * ((s.length : ℚ) - 1) := by linarith
  have h3nn : (0:ℚ) ≤ (3/4) * ((s.length : ℚ) - 1) := by linarith
  obtain ⟨i1, hi1⟩ : ∃ m : ℕ, ⌊(1/4) * ((s.length : ℚ) - 1)⌋ = (m:ℤ) :=
    ⟨(⌊(1/4) * ((s.length : ℚ) - 1)⌋).toNat,
      (Int.toNat_of_nonneg (Int.floor_nonneg.mpr h1nn)).symm⟩
  obtain ⟨i3, hi3⟩ : ∃ m : ℕ, ⌊(3/4) * ((s.length : ℚ) - 1)⌋ = (m:ℤ) :=
    ⟨(⌊(3/4) * ((s.length : ℚ) - 1)⌋).toNat,
      (Int.toNat_of_nonneg (Int.floor_nonneg.mpr h3nn)).symm⟩
  have hi1cast : (i1:ℚ) ≤ (1/4) * ((s.length : ℚ) - 1) := by
    have h := Int.floor_le ((1/4) * ((s.length : ℚ) - 1))
    rw [hi1] at h
    exact_mod_cast h
  have hi3cast : (i3:ℚ) ≤ (3/4) * ((s.length : ℚ) - 1) := by
    have h := Int.floor_le ((3/4) * ((s.length : ℚ) - 1))
    rw [hi3] at h
    exact_mod_cast h
  have hg1l : (0:ℚ) ≤ (1/4) * ((s.length : ℚ) - 1) - ⌊(1/4) * ((s.length : ℚ) - 1)⌋ := by
    have := Int.floor_le ((1/4) * ((s.length : ℚ) - 1)); linarith
  have hg1u : (1/4) * ((s.length : ℚ) - 1) - ⌊(1/4) * ((s.length : ℚ) - 1)⌋ ≤ 1 := by
    have := Int.lt_floor_add_one ((1/4) * ((s.length : ℚ) - 1)); linarith
  have hg3l : (0:ℚ) ≤ (3/4) * ((s.length : ℚ) - 1) - ⌊(3/4) * ((s.length : ℚ) - 1)⌋ := by
    have := Int.floor_le ((3/4) * ((s.length : ℚ) - 1)); linarith
  have hi1n : i1 + 1 ≤ s.length - 1 := by
    have h2 : (i1:ℚ) + 2 ≤ (s.length : ℚ) := by linarith
    have h3 : i1 + 2 ≤ s.length := by exact_mod_cast h2
    omega
  have hi3n : i3 ≤ s.length - 1 := by
    have h2 : (i3:ℚ) + 1 ≤ (s.length : ℚ) := by linarith
    have h3 : i3 + 1 ≤ s.length := by exact_mod_cast h2
    omega
  have hi13 : i1 + 1 ≤ i3 := by
    have hfloor : ((i1:ℤ)) + 1 ≤ (i3:ℤ) := by
      rw [← hi1, ← hi3]
      apply Int.le_floor.mpr
      push_cast
      have h := Int.floor_le ((1/4) * ((s.length : ℚ) - 1))
      rw [hi1] at h
      push_cast at h
      linarith
    exact_mod_cast hfloor
  have hi1lt : i1 + 1 < s.length := by omega
  have hi3lt : i3 < s.length := by omega
  have hx1 : s.getD i1 0 ≤ s.getD (i1 + 1) 0 := getD_mono s hs (Nat.le_succ i1) hi1lt
  have hx13 : s.getD (i1 + 1) 0 ≤ s.getD i3 0 := getD_mono s hs hi13 hi3lt
  have hj3 : i3 ≤ min (i3 + 1) (s.length - 1) := by omega
  have hj3lt : min (i3 + 1) (s.length - 1) < s.length := by omega
  have hx3 : s.getD i3 0 ≤ s.getD (min (i3 + 1) (s.length - 1)) 0 := getD_mono s hs hj3 hj3lt
  have e1 : quantileSorted s (1/4) = s.getD i1 0 +
      ((1/4) * ((s.length : ℚ) - 1) - ⌊(1/4) * ((s.length : ℚ) - 1)⌋) *
        (s.getD (min (i1 + 1) (s.length - 1)) 0 - s.getD i1 0) := by
    have e0 : quantileSorted s (1/4) =
        s.getD ((⌊(1/4) * ((s.length : ℚ) - 1)⌋).toNat) 0 +
        ((1/4) * ((s.length : ℚ) - 1) - ⌊(1/4) * ((s.length : ℚ) - 1)⌋) *
          (s.getD (min ((⌊(1/4) * ((s.length : ℚ) - 1)⌋).toNat + 1) (s.length - 1)) 0 -
            s.getD ((⌊(1/4) * ((s.length : ℚ) - 1)⌋).toNat) 0) := rfl
    rw [e0, hi1, Int.toNat_natCast]
  have e3 : quantileSorted s (3/4) = s.getD i3 0 +
      ((3/4) * ((s.length : ℚ) - 1) - ⌊(3/4) * ((s.length : ℚ) - 1)⌋) *
        (s.getD (min (i3 + 1) (s.length - 1)) 0 - s.getD i3 0) := by
    have e0 : quantileSorted s (3/4) =
        s.getD ((⌊(3/4) * ((s.length : ℚ) - 1)⌋).toNat) 0 +
        ((3/4) * ((s.length : ℚ) - 1) - ⌊(3/4) * ((s.length : ℚ) - 1)⌋) *
          (s.getD (min ((⌊(3/4) * ((s.length : ℚ) - 1)⌋).toNat + 1) (s.length - 1)) 0 -
            s.getD ((⌊(3/4) * ((s.length : ℚ) - 1)⌋).toNat) 0) := rfl
    rw [e0, hi3, Int.toNat_natCast]
  rw [e1, e3, show min (i1 + 1) (s.length - 1) = i1 + 1 from by omega]
  have hQ1 : s.getD i1 0 +
      ((1/4) * ((s.length : ℚ) - 1) - ⌊(1/4) * ((s.length : ℚ) - 1)⌋) *
        (s.getD (i1 + 1) 0 - s.getD i1 0) ≤ s.getD (i1 + 1) 0 := by
    nlinarith [mul_le_mul_of_nonneg_right hg1u (sub_nonneg.mpr hx1)]
  have hQ3 : s.getD i3 0 ≤ s.getD i3 0 +
      ((3/4) * ((s.length : ℚ) - 1) - ⌊(3/4) * ((s.length : ℚ) - 1)⌋) *
        (s.getD (min (i3 + 1) (s.length - 1)) 0 - s.getD i3 0) := by
    nlinarith [mul_nonneg hg3l (sub_nonneg.mpr hx3)]
  linarith

/-- C4: for every group of at least 4 values, the IQR bounds satisfy
`lower ≤ Q1 ≤ Q3 ≤ upper` (quartiles by linear interpolation on the
sorted values), and `detect_outliers` flags exactly the values strictly
outside `[lower, upper]`. -/
theorem detect_outliers_bounds (g : List ℚ) (h4 : 4 ≤ g.length) :
    lowerBound g ≤ groupQ1 g ∧ groupQ1 g ≤ groupQ3 g ∧ groupQ3 g ≤ upperBound g ∧
    ∀ p ∈ detect_outliers g, (p.2 = true ↔ (p.1 < lowerBound g ∨ upperBound g < p.1)) := by
  have hq : groupQ1 g ≤ groupQ3 g := by
    unfold groupQ1 groupQ3 quantile
    exact quantileSorted_q1_le_q3 _ (List.sorted_insertionSort _ g)
      (by rw [List.length_insertionSort]; exact h4)
  refine ⟨by unfold lowerBound; linarith, hq, by unfold upperBound; linarith, ?_⟩
  intro p hp
  obtain ⟨v, _, rfl⟩ := List.mem_map.mp hp
  simp

/-- Witness for C4 at the concrete group `[1, 2, 3, 4]`. -/
theorem detect_outliers_bounds_witness :
    4 ≤ ([1, 2, 3, 4] : List ℚ).length ∧
    (lowerBound [1, 2, 3, 4] ≤ groupQ1 [1, 2, 3, 4] ∧
      groupQ1 [1, 2, 3, 4] ≤ groupQ3 [1, 2, 3, 4] ∧
      groupQ3 [1, 2, 3, 4] ≤ upperBound [1, 2, 3, 4] ∧
      ∀ p ∈ detect_outliers [1, 2, 3, 4],
        (p.2 = true ↔ (p.1 < lowerBound [1, 2, 3, 4] ∨ upperBound [1, 2, 3, 4] < p.1))) :=
  ⟨by norm_num, detect_outliers_bounds [1, 2, 3, 4] (by norm_num)⟩

/-! Closed-form quartile values on groups of 1, 2 and 3 sorted values
(helpers for C5). -/

lemma quantileSorted_singleton (a q : ℚ) : quantileSorted [a] q = a := by
  norm_num [quantileSorted]

lemma quantileSorted_pair_q1 (a b : ℚ) :
    quantileSorted [a, b] (1/4) = a + 1/4 * (b - a) := by
  norm_num [quantileSorted]

lemma quantileSorted_pair_q3 (a b : ℚ) :
    quantileSorted [a, b] (3/4) = a + 3/4 * (b - a) := by
  norm_num [quantileSorted]

lemma quantileSorted_three_q1 (a b c : ℚ) :
    quantileSorted [a, b, c] (1/4) = a + 1/2 * (b - a) := by
  norm_num [quantileSorted]

lemma quantileSorted_three_q3 (a b c : ℚ) :
    quantileSorted [a, b, c] (3/4) = b + 1/2 * (c - b) := by
  norm_num [quantileSorted]

/-- C5: on a group of 0 to 3 values the classifier is total (it returns
a flag list, never raising) and flags no value: the degenerate
interpolated quartiles always leave every group member inside
`[lower, upper]`. -/
theorem detect_outliers_small_groups (g : List ℚ) (hlen : g.length ≤ 3) :
    ∀ p ∈ detect_outliers g, p.2 = false := by
  intro p hp
  obtain ⟨v, hv, rfl⟩ := List.mem_map.mp hp
  have hperm := List.perm_insertionSort (· ≤ ·) g
  have hsort := List.sorted_insertionSort (· ≤ ·) g
  have hvs : v ∈ g.insertionSort (· ≤ ·) := hperm.mem_iff.mpr hv
  have hslen : (g.insertionSort (· ≤ ·)).length ≤ 3 := by
    rw [List.length_insertionSort]; exact hlen
  have key : lowerBound g ≤ v ∧ v ≤ upperBound g := by
    unfold lowerBound upperBound groupQ1 groupQ3 quantile
    generalize g.insertionSort (· ≤ ·) = s at hvs hsort hslen
    rcases s with _ | ⟨a, _ | ⟨b, _ | ⟨c, _ | t⟩⟩⟩
    · exact absurd hvs (List.not_mem_nil v)
    · rw [quantileSorted_singleton, quantileSorted_singleton]
      have hva : v = a := by simpa using hvs
      subst hva
      constructor <;> linarith
    · rw [quantileSorted_pair_q1, quantileSorted_pair_q3]
      have hab : a ≤ b := by
        simp only [List.sorted_cons] at hsort
        exact hsort.1 b (by simp)
      have hv' : v = a ∨ v = b := by simpa using hvs
      rcases hv' with rfl | rfl <;> constructor <;> linarith
    · rw [quantileSorted_three_q1, quantileSorted_three_q3]
      simp only [List.sorted_cons] at hsort
      have hab : a ≤ b := hsort.1 b (by simp)
      have hbc : b ≤ c := hsort.2.1 c (by simp)
      have hv' : v = a ∨ v = b ∨ v = c := by simpa using hvs
      rcases hv' with rfl | rfl | rfl <;> constructor <;> linarith
    · exact absurd hslen (by simp)
  simp only [Bool.or_eq_false_iff, decide_eq_false_iff_not, not_lt]
  exact ⟨key.1, key.2⟩

/-- Witness for C5 at the concrete group `[5, 100]`: size 2, no value
flagged. -/
theorem detect_outliers_small_groups_witness :
    ([5, 100] : List ℚ).length ≤ 3 ∧
    ∀ p ∈ detect_outliers [5, 100], p.2 = false :=
  ⟨by norm_num, detect_outliers_small_groups [5, 100] (by norm_num)⟩

/-- Helper for C3: mapping the key extractor over a `filterMap` whose
function either drops a key or builds one row with that key gives the
filtered key list. -/
lemma filterMap_if_none_map {K R : Type} (keys : List K) (p : K → Bool) (f : K → R)
    (gk : R → K) (hf : ∀ k, gk (f k) = k) :
    ((keys.filterMap fun k => if p k then none else some (f k)).map gk)
      = keys.filter fun k => !p k := by
  induction keys with
  | nil => rfl
  | cons k t ih =>
    by_cases hp : p k = true
    · simp [List.filterMap_cons, hp, ih, List.filter_cons]
    · simp only [Bool.not_eq_true] at hp
      simp [List.filterMap_cons, hp, hf, ih, List.filter_cons]

/-- Helper for C3: the output keys of `build_price_index` are the
distinct target keys that have competitor data. -/
lemma build_price_index_map_key (records : List PricedRecord) (t : String) :
    (build_price_index records t).map PriceIndexRow.key
      = ((records.filter (maskTarget t)).map piKey).dedup.filter
          fun k => !(compVals records t k).isEmpty := by
  unfold build_price_index
  exact filterMap_if_none_map _ _ _ _ fun k => rfl

/-- Helper for C3: a key has competitor values exactly when some record
outside the target mask carries it. -/
lemma compVals_ne_nil_iff (records : List PricedRecord) (t : String)
    (k : String × String × String) :
    (∃ r ∈ records, maskTarget t r = false ∧ piKey r = k) ↔ compVals records t k ≠ [] := by
  unfold compVals
  constructor
  · rintro ⟨r, hr, hmask, hkey⟩ hnil
    have hmem : r.unitPrice ∈ ([] : List ℚ) := by
      rw [← hnil]
      exact List.mem_map_of_mem _ (List.mem_filter.mpr
        ⟨List.mem_filter.mpr ⟨hr, by simp [hmask]⟩, by simp [hkey]⟩)
    simp at hmem
  · intro hne
    obtain ⟨a, ha⟩ := List.exists_mem_of_ne_nil _ hne
    obtain ⟨r, hrf, rfl⟩ := List.mem_map.mp ha
    obtain ⟨hr1, hr2⟩ := List.mem_filter.mp hrf
    obtain ⟨hr0, hmask⟩ := List.mem_filter.mp hr1
    exact ⟨r, hr0, by simpa using hmask, by simpa using hr2⟩

/-- C3: `build_price_index` returns exactly one row per
(store × sub-department × section) key — the output keys are distinct —
and a key appears exactly when it has both target-supplier rows and
competitor rows (so keys with target rows but no competitor rows are
silently excluded); every output row's price index is the target-group
mean unit price divided by the competitor-group mean unit price, rounded
to 3 decimals. -/
theorem build_price_index_contract (records : List PricedRecord) (t : String)
    (k : String × String × String) :
    ((build_price_index records t).map PriceIndexRow.key).Nodup ∧
    ((∃ row ∈ build_price_index records t, row.key = k) ↔
      (∃ r ∈ records, maskTarget t r = true ∧ piKey r = k) ∧
      (∃ r ∈ records, maskTarget t r = false ∧ piKey r = k)) ∧
    ∀ row ∈ build_price_index records t,
      row.priceIndex = roundTo 3
        (listMean (targetVals records t row.key) / listMean (compVals records t row.key)) := by
  have htgt : k ∈ ((records.filter (maskTarget t)).map piKey).dedup ↔
      ∃ r ∈ records, maskTarget t r = true ∧ piKey r = k := by
    rw [List.mem_dedup, List.mem_map]
    constructor
    · rintro ⟨r, hrf, hkey⟩
      obtain ⟨hr, hmask⟩ := List.mem_filter.mp hrf
      exact ⟨r, hr, hmask, hkey⟩
    · rintro ⟨r, hr, hmask, hkey⟩
      exact ⟨r, List.mem_filter.mpr ⟨hr, hmask⟩, hkey⟩
  refine ⟨?_, ?_, ?_⟩
  · rw [build_price_index_map_key]
    exact (List.nodup_dedup _).filter _
  · have h2 : (∃ row ∈ build_price_index records t, row.key = k)
        ↔ k ∈ (build_price_index records t).map PriceIndexRow.key := by
      rw [List.mem_map]
    rw [h2, build_price_index_map_key, List.mem_filter]
    constructor
    · rintro ⟨hded, hcomp⟩
      refine ⟨htgt.mp hded, (compVals_ne_nil_iff records t k).mpr ?_⟩
      intro hnil
      rw [hnil] at hcomp
      simp at hcomp
    · rintro ⟨htarget, hcompex⟩
      refine ⟨htgt.mpr htarget, ?_⟩
      have hne := (compVals_ne_nil_iff records t k).mp hcompex
      simp only [Bool.not_eq_true']
      cases hcv : compVals records t k with
      | nil => exact absurd hcv hne
      | cons a l => rfl
  · intro row hrow
    unfold build_price_index at hrow
    obtain ⟨k', _, hf⟩ := List.mem_filterMap.mp hrow
    by_cases hc : (compVals records t k').isEmpty
    · rw [if_pos hc] at hf
      cases hf
    · rw [if_neg hc] at hf
      cases Option.some.inj hf
      rfl

/-! Helpers for C8: a sum over the records equals the per-store
row-count-weighted sum over the distinct stores. -/

/-- Splitting a mapped sum along a Boolean predicate. -/
lemma sum_map_filter_split {α : Type} (l : List α) (p : α → Bool) (f : α → ℚ) :
    ((l.filter p).map f).sum + ((l.filter fun a => !p a).map f).sum = (l.map f).sum := by
  induction l with
  | nil => simp
  | cons a t ih =>
    by_cases hp : p a = true
    · simp [List.filter_cons, hp]
      linarith [ih]
    · simp only [Bool.not_eq_true] at hp
      simp [List.filter_cons, hp]
      linarith [ih]

/-- A mapped sum of a function constant on the list. -/
lemma sum_map_const_of {α : Type} (l : List α) (f : α → ℚ) (c : ℚ)
    (h : ∀ a ∈ l, f a = c) : (l.map f).sum = l.length * c := by
  induction l with
  | nil => simp
  | cons a t ih =>
    simp only [List.map_cons, List.sum_cons, List.length_cons,
      h a (List.mem_cons_self a t), ih fun x hx => h x (List.mem_cons_of_mem _ hx)]
    push_cast
    ring

/-- Grouping a mapped sum by a `Nodup` covering key list. -/
lemma sum_map_store (records : List RawRecord) (keys : List String) (hnd : keys.Nodup)
    (hcov : ∀ r ∈ records, r.storeName ∈ keys) (f : String → ℚ) :
    (keys.map fun s => f s * ((records.filter fun r => r.storeName == s).length : ℚ)).sum
      = (records.map fun r => f r.storeName).sum := by
  induction keys generalizing records with
  | nil =>
    have : records = [] := List.eq_nil_iff_forall_not_mem.mpr fun r hr =>
      absurd (hcov r hr) (List.not_mem_nil _)
    simp [this]
  | cons s ks ih =>
    have hsplit := sum_map_filter_split records (fun r => r.storeName == s)
      fun r => f r.storeName
    have hconst : ((records.filter fun r => r.storeName == s).map
        fun r => f r.storeName).sum
        = ((records.filter fun r => r.storeName == s).length : ℚ) * f s := by
      rw [sum_map_const_of _ _ (f s)]
      intro a ha
      have := (List.mem_filter.mp ha).2
      rw [beq_iff_eq] at this
      rw [this]
    have hrest : (ks.map fun s' =>
        f s' * (((records.filter fun r => !(r.storeName == s)).filter
          fun r => r.storeName == s').length : ℚ)).sum
        = ((records.filter fun r => !(r.storeName == s)).map
            fun r => f r.storeName).sum := by
      refine ih _ (List.Nodup.of_cons hnd) ?_
      intro r hr
      obtain ⟨hr0, hmask⟩ := List.mem_filter.mp hr
      have := hcov r hr0
      simp only [Bool.not_eq_true', beq_eq_false_iff_ne, ne_eq] at hmask
      rcases List.mem_cons.mp this with h | h
      · exact absurd h hmask
      · exact h
    have hfilter_eq : ∀ s' ∈ ks,
        ((records.filter fun r => !(r.storeName == s)).filter
          fun r => r.storeName == s') = records.filter fun r => r.storeName == s' := by
      intro s' hs'
      have hne : s' ≠ s := by
        intro hcontra
        subst hcontra
        exact (List.nodup_cons.mp hnd).1 hs'
      rw [List.filter_filter]
      apply List.filter_congr
      intro r _
      by_cases hrs : r.storeName = s'
      · simp [hrs, hne]
      · simp [hrs]
    calc (((s :: ks)).map fun s' =>
          f s' * ((records.filter fun r => r.storeName == s').length : ℚ)).sum
        = f s * ((records.filter fun r => r.storeName == s).length : ℚ) +
          (ks.map fun s' =>
            f s' * ((records.filter fun r => r.storeName == s').length : ℚ)).sum := by
          simp
      _ = f s * ((records.filter fun r => r.storeName == s).length : ℚ) +
          (ks.map fun s' =>
            f s' * (((records.filter fun r => !(r.storeName == s)).filter
              fun r => r.storeName == s').length : ℚ)).sum := by
          congr 1
          apply congrArg
          apply List.map_congr_left
          intro s' hs'
          rw [hfilter_eq s' hs']
      _ = ((records.filter fun r => r.storeName == s).map fun r => f r.storeName).sum +
          ((records.filter fun r => !(r.storeName == s)).map fun r => f r.storeName).sum := by
          rw [hconst, hrest]; ring
      _ = (records.map fun r => f r.storeName).sum := hsplit

/-- C8 (amended): the pipeline's overall Data Health Score is the
row-count-weighted mean of the per-store scores — each store weighted by
its number of records, not by its quantity of units — equivalently the
plain mean, over the records, of each record's store score (rounded to
1 decimal as in the source). -/
theorem overall_score_row_count_weighted (records : List RawRecord) :
    overall_score records
      = roundTo 1 ((records.map fun r => storeHealthScore records r.storeName).sum
          / (records.length : ℚ)) := by
  have hnd : (storeList records).Nodup := List.nodup_dedup _
  have hcov : ∀ r ∈ records, r.storeName ∈ storeList records := fun r hr =>
    List.mem_dedup.mpr (List.mem_map_of_mem _ hr)
  have hnum := sum_map_store records (storeList records) hnd hcov
    (storeHealthScore records)
  have hden := sum_map_store records (storeList records) hnd hcov fun _ => 1
  have hden' : ((storeList records).map
      fun s => ((records.filter fun r => r.storeName == s).length : ℚ)).sum
      = (records.length : ℚ) := by
    have h1 : ((storeList records).map
        fun s => ((records.filter fun r => r.storeName == s).length : ℚ)).sum
        = ((storeList records).map
          fun s => (1:ℚ) * ((records.filter fun r => r.storeName == s).length : ℚ)).sum := by
      congr 1
      apply List.map_congr_left
      intro s _
      ring
    rw [h1, hden]
    rw [sum_map_const_of _ _ 1 fun _ _ => rfl]
    ring
  unfold overall_score
  congr 1
  rw [show (((storeList records).map fun s =>
        storeHealthScore records s * (storeTotalRows records s : ℚ)).sum)
      = ((storeList records).map fun s => storeHealthScore records s *
        ((records.filter fun r => r.storeName == s).length : ℚ)).sum from rfl,
    show (((storeList records).map fun s => (storeTotalRows records s : ℚ)).sum)
      = ((storeList records).map
        fun s => ((records.filter fun r => r.storeName == s).length : ℚ)).sum from rfl,
    hnum, hden']

/-! C8 concrete input: store A has one healthy high-volume record
(quantity 10), store B one low-volume record (quantity 1) with missing
RRP. -/

/-- C8 counterexample record of store A. -/
def c8rA : RawRecord :=
  { storeName := "A", itemCode := "I1", quantity := 10, totalSales := 10,
    rrp := some 5, dateOfSale := "d1" }

/-- C8 counterexample record of store B. -/
def c8rB : RawRecord :=
  { storeName := "B", itemCode := "I2", quantity := 1, totalSales := 1,
    rrp := none, dateOfSale := "d2" }

/-- The two-record C8 counterexample data set. -/
def c8Records : List RawRecord := [c8rA, c8rB]

/-- C8 counterexample: on `c8Records` store A scores 100 and store B
scores 80.8, so the code's row-count-weighted overall score is
`round1((100 + 80.8)/2) = 90.4`, while the claimed quantity-weighted
mean is `round1((100·10 + 80.8·1)/11) = 98.3`; the two differ. -/
theorem overall_score_weighting_counterexample :
    overall_score c8Records = 452/5 ∧
    overall_score_quantity_weighted_claim c8Records = 983/10 ∧
    overall_score c8Records ≠ overall_score_quantity_weighted_claim c8Records := by
  have hsl : storeList c8Records = ["A", "B"] := rfl
  have hrA : storeRows c8Records "A" = [c8rA] := by decide
  have hrB : storeRows c8Records "B" = [c8rB] := by decide
  have hitem : itemRRPs c8Records "I1" = [5] := by decide
  have hflagA : rrpOutlierFlag c8Records c8rA = false := by
    have h5 : c8rA.rrp = some 5 := rfl
    rw [rrpOutlierFlag, h5, show c8rA.itemCode = "I1" from rfl, hitem]
    norm_num [lowerBound, upperBound, groupQ1, groupQ3, quantile, quantileSorted]
  have hnegA : List.countP (fun r => decide (r.quantity < 0)) [c8rA] = 0 := by decide
  have hmisA : List.countP (fun r => r.rrp == none) [c8rA] = 0 := by decide
  have hfilA : List.filter (fun r => !(r.rrp == none)) [c8rA] = [c8rA] := by decide
  have hcntA : List.countP (rrpOutlierFlag c8Records) [c8rA] = 0 := by
    simp [List.countP_cons, hflagA]
  have hnegB : List.countP (fun r => decide (r.quantity < 0)) [c8rB] = 0 := by decide
  have hmisB : List.countP (fun r => r.rrp == none) [c8rB] = 1 := by decide
  have hfilB : List.filter (fun r => !(r.rrp == none)) [c8rB] = [] := by decide
  have hA : storeHealthScore c8Records "A" = 100 := by
    simp only [storeHealthScore, storeNegativeRows, storeMissingRRP, storeOutlierCount,
      storeTotalProducts, storeUnreliable, storePctMissingAllCols, storeTotalRows,
      hrA, hnegA, hmisA, hfilA, hcntA, rawColumnCount, List.length_cons, List.length_nil]
    norm_num [compute_health_score, roundTo, round_eq]
  have hB : storeHealthScore c8Records "B" = 404/5 := by
    simp only [storeHealthScore, storeNegativeRows, storeMissingRRP, storeOutlierCount,
      storeTotalProducts, storeUnreliable, storePctMissingAllCols, storeTotalRows,
      hrB, hnegB, hmisB, hfilB, hcntA, rawColumnCount, List.length_cons, List.length_nil,
      List.countP_nil]
    norm_num [compute_health_score, roundTo, round_eq]
  have hTA : storeTotalRows c8Records "A" = 1 := by rw [storeTotalRows, hrA]; rfl
  have hTB : storeTotalRows c8Records "B" = 1 := by rw [storeTotalRows, hrB]; rfl
  have hQA : ((storeRows c8Records "A").map RawRecord.quantity).sum = 10 := by
    rw [hrA]
    norm_num [show c8rA.quantity = 10 from rfl]
  have hQB : ((storeRows c8Records "B").map RawRecord.quantity).sum = 1 := by
    rw [hrB]
    norm_num [show c8rB.quantity = 1 from rfl]
  have h1 : overall_score c8Records = 452/5 := by
    unfold overall_score
    rw [hsl]
    simp only [List.map_cons, List.map_nil, List.sum_cons, List.sum_nil, hA, hB, hTA, hTB]
    norm_num [roundTo, round_eq]
  have h2 : overall_score_quantity_weighted_claim c8Records = 983/10 := by
    unfold overall_score_quantity_weighted_claim
    rw [hsl]
    simp only [List.map_cons, List.map_nil, List.sum_cons, List.sum_nil, hA, hB, hQA, hQB]
    norm_num [roundTo, round_eq]
  refine ⟨h1, h2, by rw [h1, h2]; norm_num⟩
